import Mathlib

/-!
Verification of the planning-grid and scoring engine of the food-forest
planner (src/app.js).  The JavaScript source is shallowly embedded:

* JS numbers are modelled as rationals (`ℚ`); `Math.sqrt` of a negative
  number yields NaN, modelled as `Option` with `none` for NaN;
* the grid state, a JS object keyed by `"x,y"` strings, is modelled as an
  association list `List (Coord × List Plant)` in key-insertion order,
  which is exactly the enumeration order of `Object.values` for such
  non-integer-like keys;
* `Set` objects are modelled by insertion-ordered duplicate-free lists or
  by `Finset` cardinalities where only the size is consumed.
-/

namespace FoodForest

/-- The seven canonical vertical layers used by the plant records and the
layer select control of src/app.js. -/
inductive Layer
  | canopy
  | subCanopy
  | shrub
  | herbaceous
  | groundCover
  | vine
  | root
deriving DecidableEq, Fintype

/-- A plant/species record, with the fields of the catalog records that the
engine reads (id, name, layer, companions, yieldPerYear, marketPrice,
maturityAge).  Presentation-only fields (symbol, climate, image, unit,
description) are omitted: no claim reads them. -/
structure Plant where
  id : ℕ
  name : String
  layer : Layer
  companions : List String
  yieldPerYear : ℚ
  marketPrice : ℚ
  maturityAge : ℚ
deriving DecidableEq

/-- A cell coordinate, the `(x, y)` pair encoded as the object key
`"x,y"` in src/app.js `handleCanvasClick`. -/
abbrev Coord : Type := ℤ × ℤ

/-- The grid state: a JS object mapping cell keys to arrays of plants,
modelled as an association list in key-insertion order. -/
abbrev Grid : Type := List (Coord × List Plant)

/-- The empty grid, JS `{}`. -/
def emptyGrid : Grid := []

/-- JS `prevState[key] || []` (src/app.js line 375): the value at a key,
or the empty array when the key is absent. -/
def getCell (g : Grid) (c : Coord) : List Plant :=
  match g.find? (fun e => decide (e.1 = c)) with
  | some e => e.2
  | none => []

/-- JS `{ ...prevState, [key]: v }` (src/app.js lines 384–387): if `key`
is already present its value is overwritten in place, otherwise the new
key is appended at the end of the insertion order. -/
def setCell (g : Grid) (c : Coord) (v : List Plant) : Grid :=
  if g.any (fun e => decide (e.1 = c)) then
    g.map (fun e => if e.1 = c then (c, v) else e)
  else
    g ++ [(c, v)]

/-- The per-layer density caps, src/app.js lines 376–381:
`{'Canopy': 1, 'Shrub': 4, 'Root': 7}` with `|| 7` as default. -/
def layerCapacity : Layer → ℕ
  | .canopy => 1
  | .shrub => 4
  | .root => 7
  | _ => 7

/-- The planting branch of `handleCanvasClick` (src/app.js lines 373–390):
append the selected plant to the clicked cell when the count of occupants
in the same layer is below that layer's cap, otherwise return the state
unchanged. -/
def place (g : Grid) (c : Coord) (p : Plant) : Grid :=
  let currentPlants := getCell g c
  let capacity := layerCapacity p.layer
  if (currentPlants.filter (fun q => decide (q.layer = p.layer))).length < capacity then
    setCell g c (currentPlants ++ [p])
  else
    g

/-- The eraser branch of `handleCanvasClick` (src/app.js lines 392–397):
`const { [key]: _, ...newState } = prevState` deletes the whole entry at
the clicked key and keeps every other entry in order. -/
def remove (g : Grid) (c : Coord) : Grid :=
  g.filter (fun e => decide (e.1 ≠ c))

/-- A sequence of placement commands applied in order, starting from a
given grid. -/
def applyPlaces (ops : List (Coord × Plant)) (g : Grid) : Grid :=
  ops.foldl (fun acc op => place acc op.1 op.2) g

/-- JS `Object.values(gridState).flat()` (src/app.js lines 14, 138, 318,
324): all placed plant instances in key-insertion order. -/
def plantList (g : Grid) : List Plant :=
  (g.map Prod.snd).flatten

/-- The number of occupants of layer `L` in a cell's plant array,
JS `currentPlants.filter(p => p.layer === selectedPlant.layer).length`. -/
def countLayer (plants : List Plant) (L : Layer) : ℕ :=
  (plants.filter (fun q => decide (q.layer = L))).length

/-- A pairwise compatibility finding of the analyzer. -/
inductive Finding
  | compatible
  | indeterminate
deriving DecidableEq

/-- The branch structure of the inner loop of `analyzePlantCompatibility`
(src/app.js lines 23–27): `compatible` via the first branch when `plant1`
lists `plant2` as companion; `indeterminate` via the `else if` when
neither lists the other; no finding at all in the remaining case, i.e.
when only `plant2` lists `plant1`. -/
def classifyPair (p1 p2 : Plant) : Option Finding :=
  if p1.companions.contains p2.name then some .compatible
  else if !p1.companions.contains p2.name && !p2.companions.contains p1.name then
    some .indeterminate
  else none

/-- The index pairs `i < j` enumerated by the double loop of
`analyzePlantCompatibility` (src/app.js lines 18–19), in loop order. -/
def orderedPairs {α : Type} : List α → List (α × α)
  | [] => []
  | x :: xs => (xs.map (fun y => (x, y))) ++ orderedPairs xs

/-- One iteration of the loop body of `analyzePlantCompatibility`
(src/app.js lines 23–27): push the pair onto the report selected by
`classifyPair`.  The pushed message strings are modelled as the pair of
the two plant names, which is the data they interpolate. -/
def pushFinding (p1 p2 : Plant)
    (acc : List (String × String) × List (String × String)) :
    List (String × String) × List (String × String) :=
  match classifyPair p1 p2 with
  | some .compatible => (acc.1 ++ [(p1.name, p2.name)], acc.2)
  | some .indeterminate => (acc.1, acc.2 ++ [(p1.name, p2.name)])
  | none => acc

/-- `analyzePlantCompatibility` (src/app.js lines 13–32): classify every
ordered pair of placed instances; first component is
`compatibilityReport`, second is `incompatiblePairs`. -/
def analyzePlantCompatibility (g : Grid) :
    List (String × String) × List (String × String) :=
  (orderedPairs (plantList g)).foldl (fun acc pq => pushFinding pq.1 pq.2 acc) ([], [])

/-- A JS value that is either a plant record or a plain string.
`updateCompanionSuggestions` (src/app.js line 318) passes plant NAMES
(strings) to `getCompanionSuggestions`, whose body reads fields that only
plant records have, so the embedding must keep both shapes. -/
inductive JSVal
  | plant (p : Plant)
  | str (s : String)
deriving DecidableEq

/-- JS property access `v.companions`: the companions array on a plant
record, `undefined` (`none`) on a string. -/
def companionsOf : JSVal → Option (List String)
  | .plant p => some p.companions
  | .str _ => none

/-- JS `selectedPlants.includes(companion)` where `companion` is a
string: strict equality can only hold against an element that is the same
string, never against a plant object. -/
def jsIncludesString (l : List JSVal) (s : String) : Bool :=
  l.any (fun v => match v with
    | .str t => t == s
    | .plant _ => false)

/-- JS `Set.prototype.add` followed by `Array.from`: insertion order with
duplicates dropped. -/
def setAdd (l : List String) (s : String) : List String :=
  if l.contains s then l else l ++ [s]

/-- `getCompanionSuggestions` (src/app.js lines 53–65).  The
`if (plant.companions)` truthiness guard skips entries whose property
access yields `undefined`; an empty array is truthy and passes. -/
def getCompanionSuggestions (selectedPlants : List JSVal) : List String :=
  selectedPlants.foldl (fun suggestions v =>
    match companionsOf v with
    | some companions =>
        companions.foldl (fun sugg companion =>
          if !(jsIncludesString selectedPlants companion) then setAdd sugg companion
          else sugg) suggestions
    | none => suggestions) []

/-- `updateCompanionSuggestions` (src/app.js lines 317–321): the placed
plants are mapped to their names (strings) and handed to
`getCompanionSuggestions`. -/
def updateCompanionSuggestions (g : Grid) : List String :=
  getCompanionSuggestions ((plantList g).map (fun p => .str p.name))

/-- One acre in square feet (src/app.js line 10). -/
def ACRE_TO_SQ_FT : ℚ := 43560

/-- The area of one 9×9 ft cell (src/app.js line 11). -/
def CELL_AREA : ℚ := 9 * 9

/-- A land-size specification: `sizeMode === 'acre'` with a property size
in acres, or `'custom'` with explicit length and width in feet. -/
inductive SizeSpec
  | acre (propertySize : ℚ)
  | custom (customLength customWidth : ℚ)

/-- JS `Math.floor(Math.sqrt(q))`: NaN (`none`) when `q < 0`; otherwise
`⌊√q⌋`, which for a non-negative rational equals `Nat.sqrt ⌊q⌋`
(theorem `jsFloorSqrt_eq_floor_real_sqrt` below). -/
def jsFloorSqrt (q : ℚ) : Option ℤ :=
  if q < 0 then none else some (Nat.sqrt ⌊q⌋.toNat)

/-- The grid-size computation of `updateGridSize` (src/app.js lines
258–267).  `Math.max(NaN, 1)` is NaN, so the clamp maps over the
option. -/
def updateGridSize (spec : SizeSpec) : Option ℤ :=
  match spec with
  | .acre propertySize =>
      let squareFeet := propertySize * ACRE_TO_SQ_FT
      (jsFloorSqrt (squareFeet / CELL_AREA)).map (fun n => max n 1)
  | .custom customLength customWidth =>
      (some ⌊min customLength customWidth / 9⌋).map (fun n => max n 1)

/-- The session state touched by `updateGridSize`: the grid dimension and
the grid contents. -/
structure SessionState where
  gridSize : Option ℤ
  gridState : Grid

/-- `updateGridSize` as a state transition (src/app.js lines 258–269): it
stores the newly derived grid size and unconditionally resets the grid
state to `{}` (`setGridState({})`). -/
def updateGridSizeState (spec : SizeSpec) (_s : SessionState) : SessionState :=
  { gridSize := updateGridSize spec, gridState := emptyGrid }

/-- The number of occupied cells of a grid: the keys present in the
state object. -/
def occupiedCells (g : Grid) : ℕ := g.length

/-- `calculateIncome` (src/app.js lines 136–148), parametrised by the
externally supplied `plantDatabase` catalog.  The income object is
modelled as a total function `String → ℚ`, with `newIncome[name] || 0`
giving the default 0. -/
def calculateIncome (plantDatabase : List Plant) (g : Grid) (forestAge : ℚ) :
    String → ℚ :=
  (plantList g).foldl (fun income plant =>
    match plantDatabase.find? (fun p => p.id == plant.id) with
    | some dbPlant =>
        let maturityFactor := min 1 (forestAge / dbPlant.maturityAge)
        let annualYield := dbPlant.yieldPerYear * maturityFactor
        let plantIncome := annualYield * dbPlant.marketPrice
        fun n => if n = dbPlant.name then income dbPlant.name + plantIncome else income n
    | none => income) (fun _ => 0)

/-- The spec-side income contribution of one placed instance to the entry
`name`: `yieldPerYear × min(1, forestAge/maturityAge) × marketPrice`
taken from the catalog record found by id; zero when the id is absent
from the catalog or the record is for a different name. -/
def specIncomeContribution (plantDatabase : List Plant) (forestAge : ℚ)
    (name : String) (plant : Plant) : ℚ :=
  match plantDatabase.find? (fun p => p.id == plant.id) with
  | some dbPlant =>
      if dbPlant.name = name then
        dbPlant.yieldPerYear * min 1 (forestAge / dbPlant.maturityAge) * dbPlant.marketPrice
      else 0
  | none => 0

/-- `calculateNetProfit` (src/app.js lines 150–161).  The income,
setup-cost and annual-cost objects enter only through `Object.values`,
passed here as the lists of their values; returns `(netProfit, roi)`. -/
def calculateNetProfit (income setupCosts annualCosts : List ℚ)
    (forestAge : ℚ) : ℚ × ℚ :=
  let totalIncome := income.foldl (fun sum val => sum + val) 0
  let totalSetupCosts := setupCosts.foldl (fun sum val => sum + val) 0
  let totalAnnualCosts := annualCosts.foldl (fun sum val => sum + val) 0
  let profit := totalIncome - totalAnnualCosts
  let newNetProfit := profit * forestAge - totalSetupCosts
  let totalCosts := totalSetupCosts + totalAnnualCosts * forestAge
  let newRoi := if totalCosts > 0 then newNetProfit / totalCosts * 100 else 0
  (newNetProfit, newRoi)

/-- The biodiversity component of `calculateScores` (src/app.js lines
323–328): `new Set(names).size × 10`, plus 50 when
`new Set(layers).size === 7`.  Only the set sizes are consumed, modelled
by `Finset.card`. -/
def calculateBiodiversityScore (g : Grid) : ℕ :=
  let plants := plantList g
  let uniqueSpecies := ((plants.map Plant.name).toFinset).card
  let layersUsed := ((plants.map Plant.layer).toFinset).card
  uniqueSpecies * 10 + (if layersUsed = 7 then 50 else 0)

/-- A JS object cannot hold the same key twice: well-formed grid states
have duplicate-free keys.  Every grid built by `place`/`remove` from `{}`
is of this shape (`applyPlaces_wellFormedKeys`). -/
def WellFormedKeys (g : Grid) : Prop := (g.map Prod.fst).Nodup

/-- No key of the grid object holds an empty array: `place` only writes
non-empty arrays and the eraser deletes whole keys, so every reachable
grid satisfies this. -/
def NoEmptyCell (g : Grid) : Prop := ∀ e ∈ g, e.2 ≠ []

/-- The density-cap invariant: no cell holds more occupants of a layer
than that layer's cap. -/
def GridCapOK (g : Grid) : Prop :=
  ∀ (c : Coord) (L : Layer), countLayer (getCell g c) L ≤ layerCapacity L

/-- Concrete catalog records used by witnesses and counterexamples. -/
def mango : Plant := ⟨1, "Mango", .canopy, ["Lemongrass"], 50, 2, 5⟩

def lemongrass : Plant := ⟨2, "Lemongrass", .herbaceous, ["Mango"], 10, 1, 1⟩

def avocado : Plant := ⟨3, "Avocado", .canopy, [], 30, 3, 4⟩

def cilantro : Plant := ⟨5, "Cilantro", .herbaceous, ["Avocado"], 2, 1, 1⟩

/-- A one-cell grid holding a mango at the origin. -/
def exampleGrid : Grid := [((0, 0), [mango])]

/-- A grid whose only cell holds an avocado and then a cilantro: the
cilantro lists the avocado as companion but not conversely. -/
def exampleGridCE : Grid := [((0, 0), [avocado, cilantro])]

section GridLemmas

theorem getCell_nil (c : Coord) : getCell [] c = [] := rfl

theorem getCell_cons (e : Coord × List Plant) (g : Grid) (c : Coord) :
    getCell (e :: g) c = if e.1 = c then e.2 else getCell g c := by
  by_cases h : e.1 = c
  · simp [getCell, List.find?, h]
  · simp [getCell, List.find?, h]

theorem getCell_append_single (g : Grid) (c c' : Coord) (v : List Plant) :
    getCell (g ++ [(c, v)]) c' =
      if getCell g c' = [] ∧ (g.any (fun e => decide (e.1 = c'))) = false then
        (if c = c' then v else []) else getCell g c' := by
  induction g with
  | nil => simp [getCell_nil, getCell_cons]
  | cons e g ih =>
    by_cases h : e.1 = c'
    · simp [getCell_cons, h, List.any_cons]
    · simp only [List.cons_append, getCell_cons, if_neg h, List.any_cons,
        decide_eq_false h, Bool.false_or]
      exact ih

theorem getCell_setCell_self (g : Grid) (c : Coord) (v : List Plant) :
    getCell (setCell g c v) c = v := by
  unfold setCell
  by_cases hany : (g.any (fun e => decide (e.1 = c))) = true
  · rw [if_pos hany]
    induction g with
    | nil => simp at hany
    | cons e g ih =>
      rw [List.map_cons]
      by_cases he : e.1 = c
      · rw [if_pos he, getCell_cons, if_pos rfl]
      · rw [if_neg he, getCell_cons, if_neg he]
        apply ih
        simp only [List.any_cons, decide_eq_false he, Bool.false_or] at hany
        exact hany
  · rw [if_neg hany]
    induction g with
    | nil => simp [getCell_cons]
    | cons e g ih =>
      simp only [List.any_cons, Bool.or_eq_true, decide_eq_true_eq] at hany
      push_neg at hany
      rw [List.cons_append, getCell_cons, if_neg hany.1]
      exact ih (by simp only [List.any_eq_true, decide_eq_true_eq]; exact
        fun hx => hany.2 (by simpa [List.any_eq_true, decide_eq_true_eq] using hx))

theorem getCell_setCell_ne (g : Grid) (c c' : Coord) (v : List Plant)
    (h : c' ≠ c) : getCell (setCell g c v) c' = getCell g c' := by
  unfold setCell
  by_cases hany : (g.any (fun e => decide (e.1 = c))) = true
  · rw [if_pos hany]
    clear hany
    induction g with
    | nil => rfl
    | cons e g ih =>
      rw [List.map_cons]
      by_cases he : e.1 = c
      · rw [if_pos he, getCell_cons, getCell_cons]
        rw [if_neg (fun hc : c = c' => h hc.symm)]
        rw [if_neg (fun hc : e.1 = c' => h (by rw [← hc]; exact he))]
        exact ih
      · rw [if_neg he, getCell_cons, getCell_cons]
        by_cases he' : e.1 = c'
        · rw [if_pos he', if_pos he']
        · rw [if_neg he', if_neg he']
          exact ih
  · rw [if_neg hany]
    rw [getCell_append_single]
    by_cases hz : getCell g c' = [] ∧ (g.any (fun e => decide (e.1 = c'))) = false
    · rw [if_pos hz, if_neg (fun hc : c = c' => h hc.symm), hz.1]
    · rw [if_neg hz]

theorem getCell_remove_self (g : Grid) (c : Coord) :
    getCell (remove g c) c = [] := by
  unfold remove
  induction g with
  | nil => rfl
  | cons e g ih =>
    by_cases he : e.1 = c
    · simpa [List.filter_cons, he] using ih
    · rw [List.filter_cons, decide_eq_true (by exact he : e.1 ≠ c), if_pos rfl]
      rw [getCell_cons, if_neg he]
      exact ih

theorem getCell_remove_ne (g : Grid) (c c' : Coord) (h : c' ≠ c) :
    getCell (remove g c) c' = getCell g c' := by
  unfold remove
  induction g with
  | nil => rfl
  | cons e g ih =>
    rw [getCell_cons]
    by_cases he : e.1 = c
    · rw [List.filter_cons, decide_eq_false (by simpa using he)]
      rw [if_neg (fun hc : e.1 = c' => h (he ▸ hc).symm)]
      exact ih
    · rw [List.filter_cons, decide_eq_true (by exact he : e.1 ≠ c), if_pos rfl]
      rw [getCell_cons]
      by_cases he' : e.1 = c'
      · rw [if_pos he', if_pos he']
      · rw [if_neg he', if_neg he']
        exact ih

theorem remove_idem (g : Grid) (c : Coord) :
    remove (remove g c) c = remove g c := by
  unfold remove
  rw [List.filter_filter]
  congr 1
  funext a
  rw [Bool.and_self]

end GridLemmas

section RemovalLemmas

theorem remove_eq_self_of_key_absent (g : Grid) (c : Coord)
    (h : ∀ e ∈ g, e.1 ≠ c) : remove g c = g := by
  unfold remove
  induction g with
  | nil => rfl
  | cons e g ih =>
    rw [List.filter_cons, decide_eq_true (h e (by simp)), if_pos rfl,
      ih (fun x hx => h x (List.mem_cons_of_mem e hx))]

theorem key_absent_of_getCell_nil (g : Grid) (c : Coord)
    (hne : NoEmptyCell g) (h : getCell g c = []) : ∀ e ∈ g, e.1 ≠ c := by
  induction g with
  | nil => simp
  | cons e g ih =>
    intro x hx
    rw [getCell_cons] at h
    by_cases he : e.1 = c
    · rw [if_pos he] at h
      exact absurd h (hne e (List.mem_cons_self e g))
    · rw [if_neg he] at h
      rcases List.mem_cons.mp hx with rfl | hx'
      · exact he
      · exact ih (fun y hy => hne y (List.mem_cons_of_mem e hy)) h x hx'

end RemovalLemmas

/-- C6: the eraser clears the whole sequence at the targeted coordinate;
removing at a coordinate that is already empty (in a well-formed grid
that stores no empty arrays) leaves the grid unchanged; and removal is
idempotent. -/
theorem remove_clears_noop_idempotent :
    (∀ (g : Grid) (c : Coord), getCell (remove g c) c = []) ∧
    (∀ (g : Grid) (c : Coord), NoEmptyCell g → getCell g c = [] →
      remove g c = g) ∧
    (∀ (g : Grid) (c : Coord), remove (remove g c) c = remove g c) := by
  refine ⟨getCell_remove_self, ?_, remove_idem⟩
  intro g c hne h
  exact remove_eq_self_of_key_absent g c (key_absent_of_getCell_nil g c hne h)

/-- Witness for C6 at a concrete grid: the cell `(1, 1)` of the
one-entry example grid is empty, and removing there is a no-op. -/
theorem remove_clears_noop_idempotent_witness :
    remove exampleGrid (1, 1) = exampleGrid :=
  remove_clears_noop_idempotent.2.1 exampleGrid (1, 1)
    (by intro e he; simp [exampleGrid] at he; simp [he])
    (by rfl)

/-- C10: placing at a coordinate (whether the placement is accepted or
rejected by the density cap) and erasing a coordinate both leave the
contents of every other coordinate unchanged. -/
theorem untouched_cell_frame :
    ∀ (g : Grid) (c c' : Coord) (p : Plant), c ≠ c' →
      getCell (place g c p) c' = getCell g c' ∧
      getCell (remove g c) c' = getCell g c' := by
  intro g c c' p h
  refine ⟨?_, getCell_remove_ne g c c' (Ne.symm h)⟩
  unfold place
  by_cases hcap :
      ((getCell g c).filter (fun q => decide (q.layer = p.layer))).length <
        layerCapacity p.layer
  · simpa [if_pos hcap] using
      getCell_setCell_ne g c c' (getCell g c ++ [p]) (Ne.symm h)
  · simp [if_neg hcap]

/-- Witness for C10: placing a lemongrass at the occupied origin and
erasing the origin both leave cell `(1, 1)` as it was. -/
theorem untouched_cell_frame_witness :
    getCell (place exampleGrid (0, 0) lemongrass) (1, 1) =
      getCell exampleGrid (1, 1) ∧
    getCell (remove exampleGrid (0, 0)) (1, 1) = getCell exampleGrid (1, 1) :=
  untouched_cell_frame exampleGrid (0, 0) (1, 1) lemongrass (by decide)

section CapLemmas

theorem countLayer_append (l1 l2 : List Plant) (L : Layer) :
    countLayer (l1 ++ l2) L = countLayer l1 L + countLayer l2 L := by
  unfold countLayer
  rw [List.filter_append, List.length_append]

theorem countLayer_single (p : Plant) (L : Layer) :
    countLayer [p] L = if p.layer = L then 1 else 0 := by
  unfold countLayer
  by_cases h : p.layer = L
  · simp [List.filter, h]
  · simp [List.filter, h]

theorem place_preserves_capOK (g : Grid) (c : Coord) (p : Plant)
    (h : GridCapOK g) : GridCapOK (place g c p) := by
  unfold place
  by_cases hcap :
      ((getCell g c).filter (fun q => decide (q.layer = p.layer))).length <
        layerCapacity p.layer
  · rw [if_pos hcap]
    intro c' L
    by_cases hc : c' = c
    · subst hc
      rw [getCell_setCell_self, countLayer_append, countLayer_single]
      by_cases hL : p.layer = L
      · rw [if_pos hL]
        have : countLayer (getCell g c') p.layer < layerCapacity p.layer := hcap
        rw [hL] at this
        omega
      · rw [if_neg hL]
        have := h c' L
        omega
    · rw [getCell_setCell_ne g c c' _ hc]
      exact h c' L
  · rw [if_neg hcap]
    exact h

theorem applyPlaces_preserves_capOK (ops : List (Coord × Plant)) (g : Grid)
    (h : GridCapOK g) : GridCapOK (applyPlaces ops g) := by
  induction ops generalizing g with
  | nil => exact h
  | cons op ops ih => exact ih _ (place_preserves_capOK g op.1 op.2 h)

theorem emptyGrid_capOK : GridCapOK emptyGrid := by
  intro c L
  simp [emptyGrid, getCell_nil, countLayer]

end CapLemmas

/-- C3: after any sequence of placements starting from the empty grid,
every cell holds at most `cap(L)` occupants of each layer `L`
(1 for Canopy, 4 for Shrub, 7 for Root, 7 otherwise); and a placement
that would exceed the cap returns the grid unchanged, surfacing no
error. -/
theorem density_cap_invariant :
    (∀ (ops : List (Coord × Plant)) (c : Coord) (L : Layer),
      countLayer (getCell (applyPlaces ops emptyGrid) c) L ≤ layerCapacity L) ∧
    (∀ (g : Grid) (c : Coord) (p : Plant),
      layerCapacity p.layer ≤ countLayer (getCell g c) p.layer →
      place g c p = g) := by
  constructor
  · intro ops c L
    exact applyPlaces_preserves_capOK ops emptyGrid emptyGrid_capOK c L
  · intro g c p hfull
    unfold place
    rw [if_neg (by unfold countLayer at hfull; omega)]

/-- Witness for C3: the origin already holds one canopy plant, so placing
a second canopy plant there is rejected and the grid is unchanged. -/
theorem density_cap_invariant_witness :
    layerCapacity avocado.layer ≤
      countLayer (getCell exampleGrid (0, 0)) avocado.layer ∧
    place exampleGrid (0, 0) avocado = exampleGrid :=
  ⟨by decide, density_cap_invariant.2 exampleGrid (0, 0) avocado (by decide)⟩

/-- C5: changing the land-size specification resets the grid model to
empty — zero occupied cells and every cell reads as empty — for every
prior grid state and every new specification. -/
theorem resize_clears_grid :
    ∀ (spec : SizeSpec) (s : SessionState),
      occupiedCells (updateGridSizeState spec s).gridState = 0 ∧
      ∀ c : Coord, getCell (updateGridSizeState spec s).gridState c = [] := by
  intro spec s
  constructor
  · rfl
  · intro c
    rfl

section SumLemmas

theorem foldl_add_eq_sum (l : List ℚ) (a : ℚ) :
    l.foldl (fun sum val => sum + val) a = a + l.sum := by
  induction l generalizing a with
  | nil => simp
  | cons x l ih =>
    rw [List.foldl_cons, ih, List.sum_cons]
    ring

end SumLemmas

/-- C8: the profit projection computes
`netProfit = (Σincome − ΣannualCosts) × forestAge − ΣsetupCosts` and
`roi = netProfit / (ΣsetupCosts + ΣannualCosts × forestAge) × 100`,
except that `roi = 0` whenever the denominator is ≤ 0; division is total,
so no division fault can occur. -/
theorem net_profit_roi_formula :
    ∀ (income setupCosts annualCosts : List ℚ) (forestAge : ℚ),
      (calculateNetProfit income setupCosts annualCosts forestAge).1 =
        (income.sum - annualCosts.sum) * forestAge - setupCosts.sum ∧
      (setupCosts.sum + annualCosts.sum * forestAge ≤ 0 →
        (calculateNetProfit income setupCosts annualCosts forestAge).2 = 0) ∧
      (0 < setupCosts.sum + annualCosts.sum * forestAge →
        (calculateNetProfit income setupCosts annualCosts forestAge).2 =
          ((income.sum - annualCosts.sum) * forestAge - setupCosts.sum) /
            (setupCosts.sum + annualCosts.sum * forestAge) * 100) := by
  intro income setupCosts annualCosts forestAge
  unfold calculateNetProfit
  simp only [foldl_add_eq_sum, zero_add]
  refine ⟨trivial, fun hle => ?_, fun hgt => ?_⟩
  · rw [if_neg (not_lt.mpr hle)]
  · rw [if_pos hgt]

/-- Witness for C8: with no costs the denominator is 0 and roi is exactly
0; with a positive setup cost the quotient formula is used. -/
theorem net_profit_roi_formula_witness :
    (calculateNetProfit [100] [] [] 2).2 = 0 ∧
    (calculateNetProfit [100] [10] [] 2).2 =
      ((([100] : List ℚ).sum - ([] : List ℚ).sum) * 2 - ([10] : List ℚ).sum) /
        (([10] : List ℚ).sum + ([] : List ℚ).sum * 2) * 100 :=
  ⟨(net_profit_roi_formula [100] [] [] 2).2.1 (by norm_num),
   (net_profit_roi_formula [100] [10] [] 2).2.2 (by norm_num)⟩

section IncomeLemmas

theorem income_foldl_sum (db : List Plant) (age : ℚ) (l : List Plant)
    (income : String → ℚ) (name : String) :
    (l.foldl (fun income plant =>
      match db.find? (fun p => p.id == plant.id) with
      | some dbPlant =>
          let maturityFactor := min 1 (age / dbPlant.maturityAge)
          let annualYield := dbPlant.yieldPerYear * maturityFactor
          let plantIncome := annualYield * dbPlant.marketPrice
          fun n => if n = dbPlant.name then income dbPlant.name + plantIncome
            else income n
      | none => income) income) name
      = income name + (l.map (specIncomeContribution db age name)).sum := by
  induction l generalizing income with
  | nil => simp
  | cons p l ih =>
    rw [List.foldl_cons, ih, List.map_cons, List.sum_cons, ← add_assoc]
    congr 1
    unfold specIncomeContribution
    cases hf : db.find? (fun q => q.id == p.id) with
    | none => simp [hf]
    | some dbp =>
      simp only [hf]
      by_cases hn : name = dbp.name
      · rw [if_pos hn, if_pos hn.symm, hn]
      · rw [if_neg hn, if_neg (fun h => hn h.symm), add_zero]

end IncomeLemmas

/-- C7: the income projection maps each catalog species name to the sum,
over all placed instances whose id resolves in the catalog to a record of
that name, of `yieldPerYear × min(1, forestAge/maturityAge) ×
marketPrice` from the catalog record; an instance whose id is not in the
catalog contributes zero, and the computation is total (no error). -/
theorem income_projection_by_name :
    ∀ (db : List Plant) (g : Grid) (age : ℚ) (name : String),
      calculateIncome db g age name =
        ((plantList g).map (specIncomeContribution db age name)).sum := by
  intro db g age name
  unfold calculateIncome
  rw [income_foldl_sum]
  simp

section SuggestionLemmas

theorem suggestions_foldl_const (vs : List JSVal) (l : List JSVal)
    (acc : List String) (h : ∀ v ∈ l, companionsOf v = none) :
    (l.foldl (fun suggestions v =>
      match companionsOf v with
      | some companions =>
          companions.foldl (fun sugg companion =>
            if !(jsIncludesString vs companion) then setAdd sugg companion
            else sugg) suggestions
      | none => suggestions) acc) = acc := by
  induction l generalizing acc with
  | nil => rfl
  | cons v l ih =>
    rw [List.foldl_cons]
    have hv : companionsOf v = none := h v (List.mem_cons_self v l)
    simp only [hv]
    exact ih acc (fun x hx => h x (List.mem_cons_of_mem v hx))

end SuggestionLemmas

/-- C2 (code bug): `updateCompanionSuggestions` passes plant NAMES to
`getCompanionSuggestions`, whose `plant.companions` property access on a
string yields `undefined`, so the suggestion list is ALWAYS empty — in
particular at the failing input, a grid holding a mango that lists the
unplaced companion Lemongrass, where the claim demands a non-empty
result. -/
theorem companion_suggestions_always_empty :
    (mango.companions.contains "Lemongrass" = true ∧
      ((plantList exampleGrid).map Plant.name).contains "Lemongrass" = false ∧
      updateCompanionSuggestions exampleGrid = []) ∧
    ∀ g : Grid, updateCompanionSuggestions g = [] := by
  have hall : ∀ g : Grid, updateCompanionSuggestions g = [] := by
    intro g
    unfold updateCompanionSuggestions getCompanionSuggestions
    apply suggestions_foldl_const
    intro v hv
    rcases List.mem_map.mp hv with ⟨p, _, rfl⟩
    rfl
  exact ⟨⟨by decide, by decide, hall exampleGrid⟩, hall⟩

section PlantListLemmas

theorem setCell_cons_ne (e : Coord × List Plant) (g : Grid) (c : Coord)
    (v : List Plant) (he : e.1 ≠ c) :
    setCell (e :: g) c v = e :: setCell g c v := by
  unfold setCell
  rw [List.any_cons, decide_eq_false he, Bool.false_or]
  by_cases h : (g.any fun x => decide (x.1 = c)) = true
  · rw [if_pos h, if_pos h, List.map_cons, if_neg he]
  · rw [if_neg h, if_neg h, List.cons_append]

theorem map_setCell_id (g : Grid) (c : Coord) (v : List Plant)
    (h : ∀ x ∈ g, x.1 ≠ c) :
    g.map (fun x => if x.1 = c then (c, v) else x) = g := by
  induction g with
  | nil => rfl
  | cons e g ih =>
    rw [List.map_cons, if_neg (h e (List.mem_cons_self e g)),
      ih (fun x hx => h x (List.mem_cons_of_mem e hx))]

theorem plantList_cons (e : Coord × List Plant) (g : Grid) :
    plantList (e :: g) = e.2 ++ plantList g := by
  unfold plantList
  rw [List.map_cons, List.flatten_cons]

theorem getCell_eq_nil_of_any_false (g : Grid) (c : Coord)
    (h : (g.any fun x => decide (x.1 = c)) = false) : getCell g c = [] := by
  induction g with
  | nil => rfl
  | cons e g ih =>
    rw [List.any_cons, Bool.or_eq_false_iff] at h
    rw [getCell_cons, if_neg (by simpa using h.1)]
    exact ih h.2

theorem plantList_setCell_perm (g : Grid) (c : Coord) (v : List Plant)
    (hw : WellFormedKeys g) :
    (plantList (setCell g c (getCell g c ++ v))).Perm (plantList g ++ v) := by
  induction g with
  | nil =>
    unfold setCell
    simp [getCell_nil, plantList, emptyGrid]
  | cons e g ih =>
    rw [WellFormedKeys, List.map_cons, List.nodup_cons] at hw
    by_cases he : e.1 = c
    · have hnot : ∀ x ∈ g, x.1 ≠ c := by
        intro x hx hc
        apply hw.1
        have hmem : x.1 ∈ List.map Prod.fst g := List.mem_map_of_mem Prod.fst hx
        rwa [hc, ← he] at hmem
      unfold setCell
      rw [List.any_cons, decide_eq_true he, Bool.true_or, if_pos rfl,
        List.map_cons, if_pos he, map_setCell_id g c _ hnot]
      rw [getCell_cons, if_pos he, plantList_cons, plantList_cons]
      show ((e.2 ++ v) ++ plantList g).Perm ((e.2 ++ plantList g) ++ v)
      rw [List.append_assoc, List.append_assoc]
      exact List.Perm.append_left e.2 List.perm_append_comm
    · rw [getCell_cons, if_neg he, setCell_cons_ne e g c _ he,
        plantList_cons, plantList_cons, List.append_assoc]
      exact List.Perm.append_left e.2 (ih hw.2)

theorem plantList_place (g : Grid) (c : Coord) (p : Plant)
    (hw : WellFormedKeys g) :
    place g c p = g ∨ (plantList (place g c p)).Perm (p :: plantList g) := by
  unfold place
  by_cases hcap :
      ((getCell g c).filter (fun q => decide (q.layer = p.layer))).length <
        layerCapacity p.layer
  · right
    rw [if_pos hcap]
    exact (plantList_setCell_perm g c [p] hw).trans
      (List.perm_append_singleton p (plantList g))
  · left
    rw [if_neg hcap]

end PlantListLemmas

section BiodiversityLemmas

theorem layer_card_le_seven (l : List Layer) : l.toFinset.card ≤ 7 := by
  have h := Finset.card_le_univ l.toFinset
  have hcard : Fintype.card Layer = 7 := rfl
  rw [hcard] at h
  exact h

theorem biodiversity_le_of_perm_cons (l : List Plant) (p : Plant)
    (l' : List Plant) (hperm : l'.Perm (p :: l))
    (hfresh : p.name ∉ l.map Plant.name) :
    ((l.map Plant.name).toFinset.card * 10 +
        (if (l.map Plant.layer).toFinset.card = 7 then 50 else 0)) ≤
      ((l'.map Plant.name).toFinset.card * 10 +
        (if (l'.map Plant.layer).toFinset.card = 7 then 50 else 0)) := by
  have hn : (l'.map Plant.name).toFinset = insert p.name (l.map Plant.name).toFinset := by
    rw [List.toFinset_eq_of_perm _ _ (hperm.map Plant.name)]
    simp
  have hl : (l'.map Plant.layer).toFinset = insert p.layer (l.map Plant.layer).toFinset := by
    rw [List.toFinset_eq_of_perm _ _ (hperm.map Plant.layer)]
    simp
  have hcardn : (l'.map Plant.name).toFinset.card =
      (l.map Plant.name).toFinset.card + 1 := by
    rw [hn, Finset.card_insert_of_not_mem (by rwa [List.mem_toFinset])]
  by_cases h7 : (l.map Plant.layer).toFinset.card = 7
  · have hsub : (l.map Plant.layer).toFinset ⊆ (l'.map Plant.layer).toFinset := by
      rw [hl]
      exact Finset.subset_insert _ _
    have hge : 7 ≤ (l'.map Plant.layer).toFinset.card := by
      rw [← h7]
      exact Finset.card_le_card hsub
    have hle := layer_card_le_seven (l'.map Plant.layer)
    have h7' : (l'.map Plant.layer).toFinset.card = 7 := le_antisymm hle hge
    rw [if_pos h7, if_pos h7', hcardn]
    omega
  · rw [if_neg h7, hcardn]
    by_cases h7' : (l'.map Plant.layer).toFinset.card = 7
    · rw [if_pos h7']
      omega
    · rw [if_neg h7']
      omega

end BiodiversityLemmas

/-- C9: the biodiversity score is (distinct placed names) × 10 plus a
bonus of 50 exactly when 7 distinct layers are used; and placing one
instance with a name not already on a (well-formed) grid never decreases
it — whether the placement is accepted or rejected. -/
theorem biodiversity_formula_and_monotone :
    (∀ g : Grid, calculateBiodiversityScore g =
      ((plantList g).map Plant.name).dedup.length * 10 +
        (if ((plantList g).map Plant.layer).dedup.length = 7 then 50 else 0)) ∧
    (∀ (g : Grid) (c : Coord) (p : Plant), WellFormedKeys g →
      p.name ∉ (plantList g).map Plant.name →
      calculateBiodiversityScore g ≤ calculateBiodiversityScore (place g c p)) := by
  constructor
  · intro g
    simp only [calculateBiodiversityScore, List.card_toFinset]
  · intro g c p hw hfresh
    rcases plantList_place g c p hw with heq | hperm
    · rw [heq]
    · unfold calculateBiodiversityScore
      have hmono := biodiversity_le_of_perm_cons (plantList g) p
        (plantList (place g c p)) hperm hfresh
      simpa using hmono

/-- Witness for C9: adding a lemongrass (a fresh name) to the one-mango
grid does not decrease the biodiversity score. -/
theorem biodiversity_monotone_witness :
    calculateBiodiversityScore exampleGrid ≤
      calculateBiodiversityScore (place exampleGrid (0, 0) lemongrass) :=
  biodiversity_formula_and_monotone.2 exampleGrid (0, 0) lemongrass
    (by unfold WellFormedKeys; decide) (by decide)

section AnalyzerLemmas

theorem analyze_foldl_spec (pairs : List (Plant × Plant))
    (acc : List (String × String) × List (String × String)) :
    pairs.foldl (fun acc pq => pushFinding pq.1 pq.2 acc) acc =
      (acc.1 ++ pairs.filterMap (fun pq =>
          if classifyPair pq.1 pq.2 = some .compatible
          then some (pq.1.name, pq.2.name) else none),
       acc.2 ++ pairs.filterMap (fun pq =>
          if classifyPair pq.1 pq.2 = some .indeterminate
          then some (pq.1.name, pq.2.name) else none)) := by
  induction pairs generalizing acc with
  | nil => simp
  | cons pq pairs ih =>
    rw [List.foldl_cons, ih, List.filterMap_cons, List.filterMap_cons]
    unfold pushFinding
    cases hcl : classifyPair pq.1 pq.2 with
    | none => simp [hcl]
    | some f =>
      cases f with
      | compatible => simp [hcl]
      | indeterminate => simp [hcl]

end AnalyzerLemmas

/-- C1 (amended): an examined pair is classified compatible exactly when
the FIRST-listed plant names the second as companion; indeterminate
exactly when neither names the other; when only the second names the
first, the pair receives no classification at all (the uncovered case of
the `else if`); no pair receives both, and the two reports collect
exactly the pairs so classified, in loop order. -/
theorem compatibility_classification :
    (∀ p1 p2 : Plant,
      (classifyPair p1 p2 = some .compatible ↔
        p1.companions.contains p2.name = true) ∧
      (classifyPair p1 p2 = some .indeterminate ↔
        (p1.companions.contains p2.name = false ∧
          p2.companions.contains p1.name = false)) ∧
      (p1.companions.contains p2.name = false →
        p2.companions.contains p1.name = true →
        classifyPair p1 p2 = none)) ∧
    (∀ g : Grid,
      (analyzePlantCompatibility g).1 =
        (orderedPairs (plantList g)).filterMap (fun pq =>
          if classifyPair pq.1 pq.2 = some .compatible
          then some (pq.1.name, pq.2.name) else none) ∧
      (analyzePlantCompatibility g).2 =
        (orderedPairs (plantList g)).filterMap (fun pq =>
          if classifyPair pq.1 pq.2 = some .indeterminate
          then some (pq.1.name, pq.2.name) else none)) := by
  constructor
  · intro p1 p2
    unfold classifyPair
    cases h1 : p1.companions.contains p2.name with
    | true => simp [h1]
    | false =>
      cases h2 : p2.companions.contains p1.name with
      | true => simp [h1, h2]
      | false => simp [h1, h2]
  · intro g
    unfold analyzePlantCompatibility
    rw [analyze_foldl_spec]
    simp

/-- Witness for C1: avocado does not list cilantro but cilantro lists
avocado, and that examined pair receives no classification. -/
theorem compatibility_classification_witness :
    classifyPair avocado cilantro = none :=
  (compatibility_classification.1 avocado cilantro).2.2 (by decide) (by decide)

/-- C1 counterexample: the grid holding [avocado, cilantro] in one cell
examines exactly the pair (avocado, cilantro); cilantro lists avocado as
companion — so the claim requires the pair to be classified compatible —
yet both reports come back empty: the pair receives neither
classification. -/
theorem compatibility_classification_counterexample :
    orderedPairs (plantList exampleGridCE) = [(avocado, cilantro)] ∧
    cilantro.companions.contains avocado.name = true ∧
    analyzePlantCompatibility exampleGridCE = ([], []) := by
  refine ⟨rfl, by decide, rfl⟩

section GridSizeLemmas

theorem jsFloorSqrt_eq_floor_real_sqrt (q : ℚ) (hq : 0 ≤ q) :
    jsFloorSqrt q = some ⌊Real.sqrt (q : ℝ)⌋ := by
  unfold jsFloorSqrt
  rw [if_neg (not_lt.mpr hq)]
  congr 1
  have hfl : (0 : ℤ) ≤ ⌊q⌋ := Int.floor_nonneg.mpr hq
  have htn : ((⌊q⌋.toNat : ℕ) : ℤ) = ⌊q⌋ := Int.toNat_of_nonneg hfl
  have htnq : ((⌊q⌋.toNat : ℕ) : ℚ) = ((⌊q⌋ : ℤ) : ℚ) := by exact_mod_cast htn
  have hle : ((⌊q⌋.toNat : ℕ) : ℝ) ≤ (q : ℝ) := by
    have h1 : ((⌊q⌋.toNat : ℕ) : ℚ) ≤ q := by
      rw [htnq]
      exact Int.floor_le q
    exact_mod_cast h1
  have hlt : (q : ℝ) < ((⌊q⌋.toNat : ℕ) : ℝ) + 1 := by
    have h1 : q < ((⌊q⌋.toNat : ℕ) : ℚ) + 1 := by
      rw [htnq]
      exact Int.lt_floor_add_one q
    exact_mod_cast h1
  symm
  rw [Int.floor_eq_iff]
  constructor
  · have h1 : ((Nat.sqrt ⌊q⌋.toNat : ℕ) : ℝ) ≤ Real.sqrt ((⌊q⌋.toNat : ℕ) : ℝ) :=
      Real.nat_sqrt_le_real_sqrt
    have h2 : Real.sqrt ((⌊q⌋.toNat : ℕ) : ℝ) ≤ Real.sqrt (q : ℝ) :=
      Real.sqrt_le_sqrt hle
    calc ((Nat.sqrt ⌊q⌋.toNat : ℤ) : ℝ) = ((Nat.sqrt ⌊q⌋.toNat : ℕ) : ℝ) := by
          push_cast
          ring
      _ ≤ Real.sqrt (q : ℝ) := le_trans h1 h2
  · have h0 : (0 : ℝ) ≤ ((Nat.sqrt ⌊q⌋.toNat : ℤ) : ℝ) := by
      push_cast
      positivity
    rw [Real.sqrt_lt' (by linarith)]
    have hnat : ⌊q⌋.toNat + 1 ≤ (Nat.sqrt ⌊q⌋.toNat + 1) ^ 2 :=
      Nat.lt_succ_sqrt' ⌊q⌋.toNat
    have hstep : ((⌊q⌋.toNat : ℕ) : ℝ) + 1 ≤ (((Nat.sqrt ⌊q⌋.toNat : ℤ) : ℝ) + 1) ^ 2 := by
      calc ((⌊q⌋.toNat : ℕ) : ℝ) + 1 ≤ ((Nat.sqrt ⌊q⌋.toNat + 1 : ℕ) : ℝ) ^ 2 := by
            exact_mod_cast hnat
        _ = (((Nat.sqrt ⌊q⌋.toNat : ℤ) : ℝ) + 1) ^ 2 := by
            push_cast
            ring
    exact lt_of_lt_of_le hlt hstep

end GridSizeLemmas

/-- C4 (amended): in acre mode with non-negative acreage the grid size is
`⌊√(acres × 43560 / 81)⌋` clamped to a minimum of 1; in custom mode it is
`⌊min(length, width)/9⌋` clamped to a minimum of 1, degenerate input
included; acre mode with NEGATIVE acreage takes the square root of a
negative number and yields NaN, not 1; and propertySize = 1 gives 23. -/
theorem grid_size_formula :
    (∀ a : ℚ, 0 ≤ a →
      updateGridSize (.acre a) =
        some (max ⌊Real.sqrt ((a * 43560 / 81 : ℚ) : ℝ)⌋ 1)) ∧
    (∀ l w : ℚ, updateGridSize (.custom l w) = some (max ⌊min l w / 9⌋ 1)) ∧
    (∀ a : ℚ, a < 0 → updateGridSize (.acre a) = none) ∧
    updateGridSize (.acre 1) = some 23 := by
  refine ⟨?_, ?_, ?_, ?_⟩
  · intro a ha
    show (jsFloorSqrt (a * ACRE_TO_SQ_FT / CELL_AREA)).map (fun n => max n 1) =
      some (max ⌊Real.sqrt ((a * 43560 / 81 : ℚ) : ℝ)⌋ 1)
    rw [show a * ACRE_TO_SQ_FT / CELL_AREA = a * 43560 / 81 by
      norm_num [ACRE_TO_SQ_FT, CELL_AREA]]
    rw [jsFloorSqrt_eq_floor_real_sqrt _
      (div_nonneg (mul_nonneg ha (by norm_num)) (by norm_num))]
    rfl
  · intro l w
    rfl
  · intro a ha
    have hneg : a * ACRE_TO_SQ_FT / CELL_AREA < 0 :=
      div_neg_of_neg_of_pos
        (mul_neg_of_neg_of_pos ha (by norm_num [ACRE_TO_SQ_FT]))
        (by norm_num [CELL_AREA])
    show (jsFloorSqrt (a * ACRE_TO_SQ_FT / CELL_AREA)).map (fun n => max n 1) = none
    unfold jsFloorSqrt
    rw [if_pos hneg]
    rfl
  · show (jsFloorSqrt (1 * ACRE_TO_SQ_FT / CELL_AREA)).map (fun n => max n 1) = some 23
    rw [show (1 : ℚ) * ACRE_TO_SQ_FT / CELL_AREA = 43560 / 81 by
      norm_num [ACRE_TO_SQ_FT, CELL_AREA]]
    unfold jsFloorSqrt
    rw [if_neg (by norm_num)]
    have hfloor : ⌊(43560 / 81 : ℚ)⌋ = 537 := by
      rw [Int.floor_eq_iff]
      norm_num
    rw [hfloor]
    have hsqrt : Nat.sqrt (537 : ℤ).toNat = 23 := by
      rw [show ((537 : ℤ).toNat) = 537 from rfl]
      exact (Nat.eq_sqrt.mpr (by norm_num)).symm
    rw [hsqrt]
    rfl

/-- Witness for C4 at acreage 1: the clamped floor-sqrt formula. -/
theorem grid_size_formula_witness :
    updateGridSize (.acre 1) =
      some (max ⌊Real.sqrt ((1 * 43560 / 81 : ℚ) : ℝ)⌋ 1) :=
  grid_size_formula.1 1 (by norm_num)

/-- C4 counterexample: at propertySize = −1 (degenerate input, which the
claim says is clamped to 1) the code computes `Math.sqrt` of a negative
number: the grid size is NaN, not a number ≥ 1. -/
theorem grid_size_counterexample :
    updateGridSize (.acre (-1)) = none ∧
    ¬∃ n : ℤ, updateGridSize (.acre (-1)) = some n ∧ 1 ≤ n := by
  have h : updateGridSize (.acre (-1)) = none := by
    show (jsFloorSqrt ((-1) * ACRE_TO_SQ_FT / CELL_AREA)).map (fun n => max n 1) = none
    unfold jsFloorSqrt
    rw [if_pos (by norm_num [ACRE_TO_SQ_FT, CELL_AREA])]
    rfl
  refine ⟨h, ?_⟩
  rintro ⟨n, hn, -⟩
  rw [h] at hn
  exact Option.noConfusion hn

end FoodForest
